import Mathlib

/-!
# Verification of `validador_expresiones`

A shallow embedding of `src/validador_expresiones.py`, a validator and
evaluator for arithmetic expressions over the grammar

    E -> T ((+|-) T)*
    T -> F ((*|/) F)*
    F -> N | ( E )

together with proofs about its lexer (`tokenize`), its parser entry point
(`Parser.parse`), the grammar productions nested inside `parse`
(`expr`/`term`/`factor`, modelled here as `exprF`/`termF`/`factorF`), and
the facade functions `validate_expression`, `evaluate_expression` and
`probar_lista_expresiones`.

Modelling conventions:
* Python exceptions are modelled with `Except PyError`.  `ParserError`
  (the structured error class of the module) is one constructor;
  `AttributeError` — which Python raises on a failed attribute lookup —
  is another, and is *not* caught by the module's `except ParserError`
  handlers.
* In the source, the grammar productions `expr`, `term` and `factor`
  are nested `def`s inside the body of `Parser.parse`, placed *after*
  the call `self.expr()`.  They are therefore local functions of
  `parse`, never attributes of the instance, so `self.expr()` (in
  `parse`) and `parser.expr()` (in `evaluate_expression`) raise
  `AttributeError` at run time.  `Parser.parse` is embedded with this
  actual behaviour; the bodies of the nested productions (which the
  source does contain, at lines 176-217) are embedded separately as
  `exprF`/`termF`/`factorF` so that their own code can be verified.
* Python numbers are modelled by `ℚ` (the module only ever builds
  numbers from integer literals and `+ - * /`, and it guards division
  by exact zero before dividing, so rationals are an exact model).
* Recursion in the grammar productions is modelled with explicit fuel;
  running out of fuel is Python's `RecursionError`.  Theorem
  `c9_grammar_terminates` shows fuel linear in the token count is
  always enough, so the fuel is an artifact, not a behaviour change.
-/

namespace Validador

/-- Run-time errors of the Python module: the module's own `ParserError`
(message plus optional position), Python's `AttributeError` (failed
attribute lookup, carrying the attribute name), and Python's
`RecursionError` (models exhausting the recursion limit). -/
inductive PyError where
  | parserError (message : String) (position : Option Nat)
  | attributeError (name : String)
  | recursionError
  deriving DecidableEq, Repr

instance {ε α : Type} [DecidableEq ε] [DecidableEq α] : DecidableEq (Except ε α) := fun x y =>
  match x, y with
  | .ok a, .ok b =>
    if h : a = b then .isTrue (by rw [h]) else .isFalse (fun hc => h (Except.ok.inj hc))
  | .error a, .error b =>
    if h : a = b then .isTrue (by rw [h]) else .isFalse (fun hc => h (Except.error.inj hc))
  | .ok _, .error _ => .isFalse (fun hc => Except.noConfusion hc)
  | .error _, .ok _ => .isFalse (fun hc => Except.noConfusion hc)

/-- A single quote character, used in the source's error messages. -/
def squote : String := String.mk [Char.ofNat 39]

/-- `Token`: type tag and literal text, as in the `Token` class. -/
structure Token where
  type : String
  value : String
  deriving DecidableEq, Repr

/-- The fixed alphabet accepted by the lexer (`allowed_chars`). -/
def allowed_chars : List Char := "0123456789+-*/() ".toList

/-- The `type_map` dictionary of `tokenize`. -/
def type_map (ch : Char) : String :=
  if ch = '+' then "PLUS"
  else if ch = '-' then "MINUS"
  else if ch = '*' then "MUL"
  else if ch = '/' then "DIV"
  else if ch = '(' then "LPAREN"
  else "RPAREN"

/-- The message f"Símbolo no permitido: '\x7bch\x7d'". -/
def msgDisallowed (ch : Char) : String :=
  "Símbolo no permitido: " ++ squote ++ String.mk [ch] ++ squote

/-- Python's `str.strip()`: remove leading and trailing whitespace. -/
def pyStrip (s : String) : String :=
  String.mk (((s.toList.dropWhile Char.isWhitespace).reverse.dropWhile Char.isWhitespace).reverse)

/-- The main `while` loop of `tokenize` (lines 62-97): skip whitespace,
group maximal digit runs into `NUMBER` tokens, map the six punctuation
characters to their token kinds, and raise `ParserError` on anything
else (the defensive `raise` at the end of the loop body).  Each pass of
the loop advances the index, modelled here as recursion on the
remaining characters with explicit fuel; `scanTokensF_enough_fuel`
shows the fuel `scanTokens` supplies is always sufficient. -/
def scanTokensF : Nat → List Char → Except PyError (List Token)
  | 0, _ => .error .recursionError
  | _ + 1, [] => .ok []
  | fuel + 1, ch :: rest =>
    if ch.isWhitespace then scanTokensF fuel rest
    else if ch.isDigit then
      match scanTokensF fuel (rest.dropWhile Char.isDigit) with
      | .error e => .error e
      | .ok ts => .ok (Token.mk "NUMBER" (String.mk (ch :: rest.takeWhile Char.isDigit)) :: ts)
    else if ch ∈ ['+', '-', '*', '/', '(', ')'] then
      match scanTokensF fuel rest with
      | .error e => .error e
      | .ok ts => .ok (Token.mk (type_map ch) (String.mk [ch]) :: ts)
    else .error (.parserError (msgDisallowed ch) none)

/-- The scanning loop run with enough fuel for its input. -/
def scanTokens (l : List Char) : Except PyError (List Token) :=
  scanTokensF (l.length + 1) l

/-- The parenthesis-balance loop of `tokenize` (lines 100-107): a depth
counter, incremented on `LPAREN`, decremented on `RPAREN`, raising the
unmatched-close error the instant it would go negative. -/
def balanceLoop : List Token → Int → Except PyError Int
  | [], b => .ok b
  | t :: ts, b =>
    if t.type = "LPAREN" then balanceLoop ts (b + 1)
    else if t.type = "RPAREN" then
      if b - 1 < 0 then .error (.parserError "Paréntesis de cierre sin apertura previa" none)
      else balanceLoop ts (b - 1)
    else balanceLoop ts b

/-- `tokenize(expr)` (lines 49-112): strip, reject the first character
outside the allowed alphabet, run the scanning loop, then the balance
check (nonzero final depth is the unbalanced-parens error). -/
def tokenize (expr : String) : Except PyError (List Token) :=
  match (pyStrip expr).toList.find? (fun ch => decide (ch ∉ allowed_chars)) with
  | some ch => .error (.parserError (msgDisallowed ch) none)
  | none =>
    match scanTokens (pyStrip expr).toList with
    | .error e => .error e
    | .ok tokens =>
      match balanceLoop tokens 0 with
      | .error e => .error e
      | .ok b =>
        if b ≠ 0 then .error (.parserError "Paréntesis no balanceados: falta cierre" none)
        else .ok tokens

/-- The operator token kinds checked by `parse`'s entry rules. -/
def opTypes : List String := ["PLUS", "MINUS", "MUL", "DIV"]

/-- `Parser.parse` (lines 151-172) as it actually executes.  The empty
check and the leading-operator check run first; then `self.expr()` is
evaluated.  Because `expr`, `term` and `factor` are nested `def`s in the
body of `parse` itself — placed after this call and never bound as
attributes — the lookup `self.expr` fails and Python raises
`AttributeError("expr")`, which is not a `ParserError`.  The trailing
checks at lines 167-172 are unreachable. -/
def Parser.parse (tokens : List Token) : Except PyError Unit :=
  match tokens with
  | [] => .error (.parserError "Expresión vacía" none)
  | t :: _ =>
    if t.type ∈ opTypes then
      .error (.parserError "La expresión no puede iniciar con un operador" none)
    else
      .error (.attributeError "expr")

/-- `Parser.eat` (lines 137-149): consume the current token if its type
is in `token_types`, else raise `ParserError` naming the expectation.
The cursor `pos` is passed and returned explicitly. -/
def eat (tokens : List Token) (pos : Nat) (token_types : List String) :
    Except PyError (Token × Nat) :=
  match tokens[pos]? with
  | some tok =>
    if tok.type ∈ token_types then .ok (tok, pos + 1)
    else .error (.parserError
      ("Se esperaba " ++ String.intercalate " o " token_types ++ ", se encontró " ++ tok.type)
      (some pos))
  | none => .error (.parserError
      ("Se esperaba " ++ String.intercalate " o " token_types ++ ", se encontró FIN")
      (some pos))

/-- `float(tok.value)` for a digit-run literal: the base-10 value of the
digit string (`NUMBER` token texts are always nonempty digit runs). -/
def pyFloat (s : String) : ℚ :=
  ((s.toList.foldl (fun acc c => 10 * acc + (c.toNat - 48)) 0 : ℕ) : ℚ)

mutual

/-- The nested production `expr` (lines 176-187): parse a `term`, then
the `((+|-) term)*` loop, accumulating the value left to right. -/
def exprF : Nat → List Token → Nat → Except PyError (ℚ × Nat)
  | 0, _, _ => .error .recursionError
  | fuel + 1, tokens, pos =>
    match termF fuel tokens pos with
    | .error e => .error e
    | .ok (v, p) => exprLoopF fuel tokens v p
termination_by structural fuel => fuel

/-- The `while` loop of `expr`: while the current token is `PLUS` or
`MINUS`, eat it, parse another `term`, and add or subtract. -/
def exprLoopF : Nat → List Token → ℚ → Nat → Except PyError (ℚ × Nat)
  | 0, _, _, _ => .error .recursionError
  | fuel + 1, tokens, value, pos =>
    match tokens[pos]? with
    | some tok =>
      if tok.type = "PLUS" ∨ tok.type = "MINUS" then
        match eat tokens pos [tok.type] with
        | .error e => .error e
        | .ok (_, p1) =>
          match termF fuel tokens p1 with
          | .error e => .error e
          | .ok (right, p2) =>
            if tok.type = "PLUS" then exprLoopF fuel tokens (value + right) p2
            else exprLoopF fuel tokens (value - right) p2
      else .ok (value, pos)
    | none => .ok (value, pos)
termination_by structural fuel => fuel

/-- The nested production `term` (lines 189-202): parse a `factor`,
then the `((*|/) factor)*` loop. -/
def termF : Nat → List Token → Nat → Except PyError (ℚ × Nat)
  | 0, _, _ => .error .recursionError
  | fuel + 1, tokens, pos =>
    match factorF fuel tokens pos with
    | .error e => .error e
    | .ok (v, p) => termLoopF fuel tokens v p
termination_by structural fuel => fuel

/-- The `while` loop of `term`: while the current token is `MUL` or
`DIV`, eat it, parse another `factor`, and multiply — or, for `DIV`,
first raise the division-by-zero `ParserError` if the right factor is
exactly `0`, and only otherwise divide. -/
def termLoopF : Nat → List Token → ℚ → Nat → Except PyError (ℚ × Nat)
  | 0, _, _, _ => .error .recursionError
  | fuel + 1, tokens, value, pos =>
    match tokens[pos]? with
    | some tok =>
      if tok.type = "MUL" ∨ tok.type = "DIV" then
        match eat tokens pos [tok.type] with
        | .error e => .error e
        | .ok (_, p1) =>
          match factorF fuel tokens p1 with
          | .error e => .error e
          | .ok (right, p2) =>
            if tok.type = "MUL" then termLoopF fuel tokens (value * right) p2
            else if right = 0 then
              .error (.parserError "División entre 0 no permitida" none)
            else termLoopF fuel tokens (value / right) p2
      else .ok (value, pos)
    | none => .ok (value, pos)
termination_by structural fuel => fuel

/-- The nested production `factor` (lines 204-217): a `NUMBER` yields
its numeric value; an `LPAREN` brackets a recursive `expr`; any other
token raises the expected-number-or-paren `ParserError`.  When the
token stream is exhausted, `self.current()` is `None` and the access
`tok.type` raises `AttributeError("type")`. -/
def factorF : Nat → List Token → Nat → Except PyError (ℚ × Nat)
  | 0, _, _ => .error .recursionError
  | fuel + 1, tokens, pos =>
    match tokens[pos]? with
    | none => .error (.attributeError "type")
    | some tok =>
      if tok.type = "NUMBER" then
        match eat tokens pos ["NUMBER"] with
        | .error e => .error e
        | .ok (_, p1) => .ok (pyFloat tok.value, p1)
      else if tok.type = "LPAREN" then
        match eat tokens pos ["LPAREN"] with
        | .error e => .error e
        | .ok (_, p1) =>
          match exprF fuel tokens p1 with
          | .error e => .error e
          | .ok (v, p2) =>
            match eat tokens p2 ["RPAREN"] with
            | .error e => .error e
            | .ok (_, p3) => .ok (v, p3)
      else .error (.parserError ("Se esperaba número o " ++ squote ++ "(" ++ squote) none)
termination_by structural fuel => fuel

end

/-- `validate_expression(expr)` (lines 225-244): empty input
short-circuits; `tokenize` and `Parser.parse` run inside a
`try/except ParserError`, so only `ParserError` is flattened into the
`(bool, message)` pair — any other exception escapes. -/
def validate_expression (expr : String) : Except PyError (Bool × Option String) :=
  if pyStrip expr = "" then .ok (false, some "Expresión vacía")
  else
    match tokenize (pyStrip expr) with
    | .error (.parserError m _) => .ok (false, some m)
    | .error e => .error e
    | .ok tokens =>
      match Parser.parse tokens with
      | .error (.parserError m _) => .ok (false, some m)
      | .error e => .error e
      | .ok _ => .ok (true, none)

/-- `evaluate_expression(expr)` (lines 350-364): validate first; on
failure return the flattened triple.  On success, re-tokenize (outside
any handler) and call `parser.expr()` inside a `try/except ParserError`.
As with `parse`, the instance has no `expr` attribute, so this raises
`AttributeError("expr")`, which the handler does not catch. -/
def evaluate_expression (expr : String) :
    Except PyError (Bool × Option String × Option ℚ) :=
  match validate_expression expr with
  | .error e => .error e
  | .ok (ok, msg) =>
    if ok then
      match tokenize expr with
      | .error e => .error e
      | .ok _ => .error (.attributeError "expr")
    else .ok (false, msg, none)

/-- `probar_lista_expresiones(expresiones)` (lines 255-267): validate
each expression in order, appending valid ones to `VALID_EXPRESSIONS`
and invalid ones, paired with the message, to `INVALID_EXPRESSIONS`.
The two module-level lists are passed as explicit state; an exception
escaping `validate_expression` aborts the whole loop. -/
def probar_lista_expresiones (expresiones : List String)
    (valid : List String) (invalid : List (String × Option String)) :
    Except PyError (List String × List (String × Option String)) :=
  match expresiones with
  | [] => .ok (valid, invalid)
  | e :: rest =>
    match validate_expression e with
    | .error err => .error err
    | .ok (true, _) => probar_lista_expresiones rest (valid ++ [e]) invalid
    | .ok (false, msg) => probar_lista_expresiones rest valid (invalid ++ [(e, msg)])

/-- The boolean of a flattened `validate_expression` result (statement
vocabulary; meaningful when validation returns rather than raises). -/
def validBool (e : String) : Bool :=
  match validate_expression e with
  | .ok (b, _) => b
  | .error _ => false

/-- The message of a flattened `validate_expression` result (statement
vocabulary; meaningful when validation returns rather than raises). -/
def validMsg (e : String) : Option String :=
  match validate_expression e with
  | .ok (_, m) => m
  | .error _ => none

/-- Net parenthesis balance of a token list: the count of `LPAREN`
minus the count of `RPAREN` (statement vocabulary for the lexer's
depth-counter check). -/
def parenBal (ts : List Token) : Int :=
  (ts.countP (fun t => decide (t.type = "LPAREN")) : Int) -
    (ts.countP (fun t => decide (t.type = "RPAREN")) : Int)


/-! ## Theorems -/

/-- Dropping a prefix cannot lengthen a list (fuel-bound helper). -/
theorem dropWhile_length_le (p : Char → Bool) :
    ∀ l : List Char, (l.dropWhile p).length ≤ l.length
  | [] => Nat.le_refl _
  | c :: l => by
    rw [List.dropWhile_cons]
    split
    · exact Nat.le_trans (dropWhile_length_le p l) (Nat.le_succ _)
    · exact Nat.le_refl _

/-- The scanning loop consumes at least one character per pass, so fuel
exceeding the input length can never run out: the `recursionError`
branch of `scanTokensF` is unreachable from `scanTokens`. -/
theorem scanTokensF_enough_fuel :
    ∀ (fuel : Nat) (l : List Char), l.length < fuel →
      scanTokensF fuel l ≠ .error .recursionError := by
  intro fuel
  induction fuel with
  | zero => intro l h; omega
  | succ fuel ih =>
    intro l h
    match l with
    | [] => simp [scanTokensF]
    | ch :: rest =>
      rw [scanTokensF]
      have hr : rest.length < fuel := by simp only [List.length_cons] at h; omega
      split
      · exact ih rest hr
      · split
        · have hd : (rest.dropWhile Char.isDigit).length < fuel :=
            Nat.lt_of_le_of_lt (dropWhile_length_le Char.isDigit rest) hr
          cases hdw : scanTokensF fuel (rest.dropWhile Char.isDigit) with
          | error e =>
            intro hc
            exact ih _ hd (hdw.trans (by injection hc with h2; rw [h2]))
          | ok ts => simp
        · split
          · cases hdw : scanTokensF fuel rest with
            | error e =>
              intro hc
              exact ih rest hr (hdw.trans (by injection hc with h2; rw [h2]))
            | ok ts => simp
          · simp



/-- C2 (code bug): `validate_expression("42")` does not return
`(True, None)`: the call `self.expr()` inside `parse` raises
`AttributeError` (the grammar productions are nested local functions of
`parse`, not methods), which `except ParserError` does not catch, so the
exception escapes `validate_expression`. -/
theorem c2_validate_digits_raises_attribute_error :
    validate_expression "42" = .error (.attributeError "expr") := by decide

/-- C1 (code bug): the evaluate entry point does not return a flattened
triple for the input `"42"`: the uncaught `AttributeError` raised inside
`validate_expression` escapes `evaluate_expression` to the caller. -/
theorem c1_evaluate_raises_attribute_error :
    evaluate_expression "42" = .error (.attributeError "expr") := by decide

/-- C3 counterexample: on the token sequence of `"42"`, `parse` neither
succeeds with a numeric value nor fails with a `ParserError` (the
syntax-error variant): it raises `AttributeError("expr")`. -/
theorem c3_parse_attribute_error_not_syntax_error :
    Parser.parse [Token.mk "NUMBER" "42"] = .error (.attributeError "expr") := by decide

/-- C3 amended: `parse` never succeeds and never returns a value.  On an
empty token sequence it raises the empty-expression `ParserError`; when
the first token is an operator it raises the leading-operator
`ParserError`; on every other token sequence it raises
`AttributeError("expr")`, because the grammar productions are nested
inside `parse` after the point of call. -/
theorem c3_parse_always_raises (ts : List Token) :
    Parser.parse ts = .error (match ts with
      | [] => .parserError "Expresión vacía" none
      | t :: _ =>
        if t.type ∈ opTypes then
          .parserError "La expresión no puede iniciar con un operador" none
        else .attributeError "expr") := by
  match ts with
  | [] => rfl
  | t :: rest =>
    simp only [Parser.parse]
    split <;> rfl

/-- C4 counterexample: for the input `"1+"`, which ends with an
operator, `validate` does not fail with the trailing-operator error (or
any flattened result): the uncaught `AttributeError` escapes before the
trailing-operator check can run. -/
theorem c4_trailing_operator_crashes :
    validate_expression "1+" = .error (.attributeError "expr") := by decide

/-- C4 amended: for every input whose first token is one of
`+ - * /` (including a unary-looking leading `-`/`+`), `validate`
returns the flattened leading-operator failure. -/
theorem c4_leading_operator_rejected (s : String) (t : Token) (ts : List Token)
    (hne : pyStrip s ≠ "")
    (htok : tokenize (pyStrip s) = .ok (t :: ts))
    (hop : t.type ∈ opTypes) :
    validate_expression s = .ok (false, some "La expresión no puede iniciar con un operador") := by
  unfold validate_expression
  rw [if_neg hne, htok]
  simp only [Parser.parse, if_pos hop]

theorem c4_leading_operator_rejected_witness :
    validate_expression "+12" = .ok (false, some "La expresión no puede iniciar con un operador") :=
  c4_leading_operator_rejected "+12" (Token.mk "PLUS" "+") [Token.mk "NUMBER" "12"]
    (by decide) (by decide) (by decide)

/-- C7 counterexample: in `")4 @"` the earliest defect in left-to-right
order is the unmatched close parenthesis at position 0, yet the error
reported is the disallowed-character error for the later `@`: the
allowed-character scan over the whole string runs before the
parenthesis scan. -/
theorem c7_later_disallowed_char_wins :
    validate_expression ")4 @" = .ok (false, some (msgDisallowed '@')) ∧
      msgDisallowed '@' ≠ "Paréntesis de cierre sin apertura previa" := by
  constructor
  · decide
  · decide

/-- C7 amended: errors are reported phase by phase, not by position in
the input: whenever the (stripped) input contains any character outside
the allowed alphabet, the reported error is the disallowed-character
error for the leftmost such character, regardless of any parenthesis
defect occurring earlier in the string. -/
theorem c7_first_disallowed_char_reported (s : String) (ch : Char)
    (hs : pyStrip s = s) (hne : s ≠ "")
    (hfind : s.toList.find? (fun c => decide (c ∉ allowed_chars)) = some ch) :
    validate_expression s = .ok (false, some (msgDisallowed ch)) := by
  unfold validate_expression
  rw [hs, if_neg hne]
  unfold tokenize
  rw [hs]
  simp only [hfind]

theorem c7_first_disallowed_char_reported_witness :
    validate_expression ")4 @" = .ok (false, some (msgDisallowed '@')) :=
  c7_first_disallowed_char_reported ")4 @" '@' (by decide) (by decide) (by decide)

/-- C8 counterexample: the batch helper does not return per-input
results: on `["42", "+12"]` the uncaught `AttributeError` raised while
validating `"42"` aborts the loop, and no result for `"+12"` (whose own
validation would return a flattened failure) is ever produced. -/
theorem c8_batch_crashes_midway :
    probar_lista_expresiones ["42", "+12"] [] [] = .error (.attributeError "expr") := by decide

/-- C5: in the `term` production, when the current token is `DIV` and
the right-hand `factor` evaluates to exactly `0`, the division-by-zero
`ParserError` is raised no matter what the accumulated value is: the
division is never performed and no value is produced. -/
theorem c5_division_by_zero_before_division (fuel : Nat) (tokens : List Token)
    (value : ℚ) (pos p2 : Nat) (tok : Token)
    (hcur : tokens[pos]? = some tok) (hdiv : tok.type = "DIV")
    (hz : factorF fuel tokens (pos + 1) = .ok (0, p2)) :
    termLoopF (fuel + 1) tokens value pos =
      .error (.parserError "División entre 0 no permitida" none) := by
  have heat : eat tokens pos [tok.type] = .ok (tok, pos + 1) := by
    unfold eat
    rw [hcur]
    simp
  have heat2 : eat tokens pos ["DIV"] = .ok (tok, pos + 1) := by rw [← hdiv]; exact heat
  rw [termLoopF]
  simp only [hcur]
  rw [hdiv]
  rw [if_pos (Or.inr rfl)]
  simp only [heat2, hz]
  rw [if_neg (by decide)]
  exact if_pos trivial

theorem c5_division_by_zero_before_division_witness :
    termLoopF 6 [Token.mk "DIV" "/", Token.mk "NUMBER" "0"] 1 0 =
      .error (.parserError "División entre 0 no permitida" none) :=
  c5_division_by_zero_before_division 5 [Token.mk "DIV" "/", Token.mk "NUMBER" "0"]
    1 0 2 (Token.mk "DIV" "/") (by decide) (by decide) (by decide)


/-- C8 amended: the batch helper applies `validate_expression` to each
element in input order; whenever every element's validation returns a
flattened result, the inputs validated as valid are appended to the
valid list in input order, and the invalid ones, paired with their
message, to the invalid list in input order.  No combined per-input
result sequence is returned. -/
theorem c8_batch_partitions_in_order (exprs : List String) :
    ∀ (valid : List String) (invalid : List (String × Option String)),
    (∀ e ∈ exprs, (validate_expression e).isOk) →
    probar_lista_expresiones exprs valid invalid =
      .ok (valid ++ exprs.filter validBool,
           invalid ++ (exprs.filter fun e => !validBool e).map fun e => (e, validMsg e)) := by
  induction exprs with
  | nil => intro valid invalid _; simp [probar_lista_expresiones]
  | cons e rest ih =>
    intro valid invalid h
    have he : (validate_expression e).isOk := h e (List.mem_cons_self e rest)
    have hrest : ∀ x ∈ rest, (validate_expression x).isOk :=
      fun x hx => h x (List.mem_cons_of_mem e hx)
    rw [probar_lista_expresiones]
    cases hv : validate_expression e with
    | error err => rw [hv] at he; simp [Except.isOk, Except.toBool] at he
    | ok r =>
      obtain ⟨b, m⟩ := r
      have hb : validBool e = b := by unfold validBool; rw [hv]
      have hm : validMsg e = m := by unfold validMsg; rw [hv]
      cases b with
      | true =>
        simp only [hv]
        rw [ih (valid ++ [e]) invalid hrest]
        rw [List.filter_cons_of_pos (by simp [hb]), List.filter_cons_of_neg (by simp [hb])]
        simp
      | false =>
        simp only [hv]
        rw [ih valid (invalid ++ [(e, m)]) hrest]
        rw [List.filter_cons_of_neg (by simp [hb]), List.filter_cons_of_pos (by simp [hb])]
        simp [hm]

theorem c8_batch_partitions_in_order_witness :
    probar_lista_expresiones ["+12", ""] [] [] =
      .ok ([] ++ (["+12", ""].filter validBool),
           [] ++ ((["+12", ""].filter fun e => !validBool e).map fun e => (e, validMsg e))) :=
  c8_batch_partitions_in_order ["+12", ""] [] [] (by decide)

/-- A digit character is not whitespace. -/
theorem digit_not_whitespace (c : Char) (h : c.isDigit = true) :
    c.isWhitespace = false := by
  by_contra hw
  rw [Bool.not_eq_false] at hw
  have hws : ((c = ' ' ∨ c = '\t') ∨ c = '\x0d') ∨ c = '\n' := by
    simpa [Char.isWhitespace] using hw
  rcases hws with ((h1 | h1) | h1) | h1 <;> rw [h1] at h <;> exact absurd h (by decide)

/-- Concatenating the literal texts of the tokens produced by a
successful run of the scanning loop recovers the scanned characters
minus whitespace. -/
theorem scanTokensF_join (fuel : Nat) :
    ∀ (l : List Char) (ts : List Token),
      scanTokensF fuel l = .ok ts →
      (ts.map fun t => t.value.toList).flatten = l.filter (fun c => !c.isWhitespace) := by
  induction fuel with
  | zero => intro l ts h; exact absurd h (by simp [scanTokensF])
  | succ fuel ih =>
    intro l ts h
    match l with
    | [] =>
      rw [scanTokensF] at h
      injection h with h
      rw [← h]
      simp
    | ch :: rest =>
      rw [scanTokensF] at h
      by_cases hws : ch.isWhitespace
      · rw [if_pos hws] at h
        rw [List.filter_cons_of_neg (by simp [hws])]
        exact ih rest ts h
      · rw [if_neg hws] at h
        rw [List.filter_cons_of_pos (by simp [hws])]
        by_cases hd : ch.isDigit
        · rw [if_pos hd] at h
          cases hrec : scanTokensF fuel (rest.dropWhile Char.isDigit) with
          | error e => rw [hrec] at h; exact absurd h (by simp)
          | ok ts2 =>
            rw [hrec] at h
            simp only [] at h
            injection h with h
            rw [← h]
            simp only [List.map_cons, List.flatten_cons]
            rw [ih _ _ hrec]
            have hls : (String.mk (ch :: rest.takeWhile Char.isDigit)).toList =
                ch :: rest.takeWhile Char.isDigit := rfl
            rw [hls]
            have hsplit : rest = rest.takeWhile Char.isDigit ++ rest.dropWhile Char.isDigit :=
              (List.takeWhile_append_dropWhile Char.isDigit rest).symm
            conv_rhs => rw [hsplit]
            rw [List.filter_append]
            have htW : (rest.takeWhile Char.isDigit).filter (fun c => !c.isWhitespace) =
                rest.takeWhile Char.isDigit := by
              rw [List.filter_eq_self]
              intro a ha
              simp [digit_not_whitespace a (List.mem_takeWhile_imp ha)]
            rw [htW]
            simp
        · rw [if_neg hd] at h
          by_cases hp : ch ∈ ['+', '-', '*', '/', '(', ')']
          · rw [if_pos hp] at h
            cases hrec : scanTokensF fuel rest with
            | error e => rw [hrec] at h; exact absurd h (by simp)
            | ok ts2 =>
              rw [hrec] at h
              simp only [] at h
              injection h with h
              rw [← h]
              simp only [List.map_cons, List.flatten_cons]
              rw [ih _ _ hrec]
              have hls : (String.mk [ch]).toList = [ch] := rfl
              rw [hls]
              simp
          · rw [if_neg hp] at h
            exact absurd h (by simp)

/-- A successful `tokenize` means the character scan succeeded with the
same token list (the later balance check does not alter it). -/
theorem tokenize_ok_scan (s : String) (ts : List Token) (h : tokenize s = .ok ts) :
    scanTokens (pyStrip s).toList = .ok ts := by
  unfold tokenize at h
  split at h
  · exact absurd h (by simp)
  · split at h
    · exact absurd h (by simp)
    · rename_i tokens heq
      split at h
      · exact absurd h (by simp)
      · split at h
        · exact absurd h (by simp)
        · injection h with h2
          rw [heq, h2]

/-- C10: for every input accepted by the lexer, concatenating the
literal texts of the returned tokens in order yields exactly the
stripped input with all whitespace characters removed. -/
theorem c10_tokens_roundtrip (s : String) (ts : List Token)
    (h : tokenize s = .ok ts) :
    (ts.map fun t => t.value.toList).flatten =
      (pyStrip s).toList.filter (fun c => !c.isWhitespace) :=
  scanTokensF_join _ _ _ (tokenize_ok_scan s ts h)

theorem c10_tokens_roundtrip_witness :
    (([Token.mk "NUMBER" "1", Token.mk "PLUS" "+", Token.mk "NUMBER" "23"].map
        fun t => t.value.toList).flatten =
      (pyStrip " 1 + 23 ").toList.filter (fun c => !c.isWhitespace)) :=
  c10_tokens_roundtrip " 1 + 23 "
    [Token.mk "NUMBER" "1", Token.mk "PLUS" "+", Token.mk "NUMBER" "23"] (by decide)


/-- Net balance of a token prepended to a list. -/
theorem parenBal_cons (t : Token) (q : List Token) :
    parenBal (t :: q) =
      ((if t.type = "LPAREN" then 1 else 0) - (if t.type = "RPAREN" then 1 else 0) : Int) +
        parenBal q := by
  unfold parenBal
  rw [List.countP_cons, List.countP_cons]
  by_cases hL : t.type = "LPAREN" <;> by_cases hR : t.type = "RPAREN" <;>
    simp [hL, hR] <;> ring

/-- When every prefix keeps the depth counter nonnegative, the balance
loop completes and returns the final depth. -/
theorem balanceLoop_ok : ∀ (ts : List Token) (b : Int),
    (∀ p ∈ ts.inits, 0 ≤ b + parenBal p) →
    balanceLoop ts b = .ok (b + parenBal ts) := by
  intro ts
  induction ts with
  | nil => intro b h; simp [balanceLoop, parenBal]
  | cons t ts ih =>
    intro b h
    have hcons : ∀ q ∈ ts.inits, 0 ≤ b + parenBal (t :: q) := by
      intro q hq
      obtain ⟨r, hr⟩ := (List.mem_inits _ _).mp hq
      refine h (t :: q) ((List.mem_inits _ _).mpr ⟨r, ?_⟩)
      rw [List.cons_append, hr]
    rw [balanceLoop]
    by_cases hL : t.type = "LPAREN"
    · rw [if_pos hL]
      rw [ih (b + 1) (by
        intro q hq
        have := hcons q hq
        rw [parenBal_cons, if_pos hL, if_neg (by rw [hL]; decide)] at this
        omega)]
      rw [parenBal_cons, if_pos hL, if_neg (by rw [hL]; decide)]
      congr 1
      ring
    · rw [if_neg hL]
      by_cases hR : t.type = "RPAREN"
      · rw [if_pos hR]
        have h1 : 0 ≤ b + parenBal [t] :=
          h [t] ((List.mem_inits _ _).mpr ⟨ts, rfl⟩)
        rw [parenBal_cons, if_neg hL, if_pos hR] at h1
        simp only [parenBal, List.countP_nil] at h1
        rw [if_neg (by omega)]
        rw [ih (b - 1) (by
          intro q hq
          have := hcons q hq
          rw [parenBal_cons, if_neg hL, if_pos hR] at this
          omega)]
        rw [parenBal_cons, if_neg hL, if_pos hR]
        congr 1
        ring
      · rw [if_neg hR]
        rw [ih b (by
          intro q hq
          have := hcons q hq
          rw [parenBal_cons, if_neg hL, if_neg hR] at this
          omega)]
        rw [parenBal_cons, if_neg hL, if_neg hR]
        congr 1
        ring

/-- The instant some prefix would drive the depth counter negative, the
balance loop raises the unmatched-close-paren error. -/
theorem balanceLoop_err : ∀ (ts : List Token) (b : Int), 0 ≤ b →
    (∃ p ∈ ts.inits, b + parenBal p < 0) →
    balanceLoop ts b = .error (.parserError "Paréntesis de cierre sin apertura previa" none) := by
  intro ts
  induction ts with
  | nil =>
    intro b hb h
    obtain ⟨p, hp, hneg⟩ := h
    obtain ⟨r, hr⟩ := (List.mem_inits _ _).mp hp
    have hpnil : p = [] := by
      cases p with
      | nil => rfl
      | cons a q => exact absurd hr (by simp)
    rw [hpnil] at hneg
    simp only [parenBal, List.countP_nil] at hneg
    omega
  | cons t ts ih =>
    intro b hb h
    obtain ⟨p, hp, hneg⟩ := h
    obtain ⟨r, hr⟩ := (List.mem_inits _ _).mp hp
    rw [balanceLoop]
    cases p with
    | nil =>
      simp only [parenBal, List.countP_nil] at hneg
      omega
    | cons t2 q =>
      rw [List.cons_append] at hr
      injection hr with h1 h2
      rw [h1] at hneg
      have hq : q ∈ ts.inits := (List.mem_inits _ _).mpr ⟨r, h2⟩
      by_cases hL : t.type = "LPAREN"
      · rw [if_pos hL]
        refine ih (b + 1) (by omega) ⟨q, hq, ?_⟩
        rw [parenBal_cons, if_pos hL, if_neg (by rw [hL]; decide)] at hneg
        omega
      · rw [if_neg hL]
        by_cases hR : t.type = "RPAREN"
        · rw [if_pos hR]
          by_cases hz : b - 1 < 0
          · rw [if_pos hz]
          · rw [if_neg hz]
            refine ih (b - 1) (by omega) ⟨q, hq, ?_⟩
            rw [parenBal_cons, if_neg hL, if_pos hR] at hneg
            omega
        · rw [if_neg hR]
          refine ih b hb ⟨q, hq, ?_⟩
          rw [parenBal_cons, if_neg hL, if_neg hR] at hneg
          omega

/-- C6: after the character scan and before any grammar-level parsing,
`tokenize` checks the token sequence with a left-to-right depth counter
(up on `LPAREN`, down on `RPAREN`): it fails with the
unmatched-close-paren error as soon as some prefix drives the counter
negative, fails with the unbalanced-parens error when the counter is
nonzero at the end of the scan, and otherwise returns the token
sequence unchanged — all inside the lexer, before `Parser.parse` is
ever consulted. -/
theorem c6_lexer_balance_check (s : String) (ts : List Token)
    (hs : pyStrip s = s)
    (hall : s.toList.all (fun c => decide (c ∈ allowed_chars)) = true)
    (hscan : scanTokens s.toList = .ok ts) :
    ((∃ p ∈ ts.inits, parenBal p < 0) →
        tokenize s = .error (.parserError "Paréntesis de cierre sin apertura previa" none)) ∧
    ((∀ p ∈ ts.inits, 0 ≤ parenBal p) → parenBal ts ≠ 0 →
        tokenize s = .error (.parserError "Paréntesis no balanceados: falta cierre" none)) ∧
    ((∀ p ∈ ts.inits, 0 ≤ parenBal p) → parenBal ts = 0 → tokenize s = .ok ts) := by
  have hfind : (pyStrip s).toList.find? (fun ch => decide (ch ∉ allowed_chars)) = none := by
    rw [hs, List.find?_eq_none]
    intro x hx
    have hmem := List.all_eq_true.mp hall x hx
    simp only [decide_eq_true_eq] at hmem ⊢
    simp [hmem]
  refine ⟨?_, ?_, ?_⟩
  · intro hex
    obtain ⟨p, hp, hneg⟩ := hex
    unfold tokenize
    rw [hs] at hfind ⊢
    simp only [hfind, hscan]
    rw [balanceLoop_err ts 0 le_rfl ⟨p, hp, by omega⟩]
  · intro hpre hne
    unfold tokenize
    rw [hs] at hfind ⊢
    simp only [hfind, hscan]
    rw [balanceLoop_ok ts 0 (fun p hp => by have := hpre p hp; omega)]
    show (if 0 + parenBal ts ≠ 0 then
        Except.error (PyError.parserError "Paréntesis no balanceados: falta cierre" none)
      else Except.ok ts) = _
    rw [if_pos (by omega)]
  · intro hpre hz
    unfold tokenize
    rw [hs] at hfind ⊢
    simp only [hfind, hscan]
    rw [balanceLoop_ok ts 0 (fun p hp => by have := hpre p hp; omega)]
    show (if 0 + parenBal ts ≠ 0 then
        Except.error (PyError.parserError "Paréntesis no balanceados: falta cierre" none)
      else Except.ok ts) = _
    rw [if_neg (by omega)]

theorem c6_lexer_balance_check_witness :
    tokenize "2*)3" = .error (.parserError "Paréntesis de cierre sin apertura previa" none) :=
  (c6_lexer_balance_check "2*)3"
      [Token.mk "NUMBER" "2", Token.mk "MUL" "*", Token.mk "RPAREN" ")", Token.mk "NUMBER" "3"]
      (by decide) (by decide) (by decide)).1 (by decide)


/-- A successful index lookup implies the index is in range. -/
theorem getElem?_some_lt {α : Type} (l : List α) (n : Nat) (a : α)
    (h : l[n]? = some a) : n < l.length := by
  by_contra hge
  push_neg at hge
  rw [List.getElem?_eq_none hge] at h
  exact absurd h (by simp)

/-- Inversion for a successful `eat`: the cursor advanced by one and
the consumed token was the current one. -/
theorem eat_ok_inv (tokens : List Token) (pos : Nat) (tys : List String)
    (tok : Token) (p2 : Nat) (h : eat tokens pos tys = .ok (tok, p2)) :
    p2 = pos + 1 ∧ tokens[pos]? = some tok := by
  unfold eat at h
  split at h
  · rename_i t hcur
    split at h
    · obtain ⟨h1, h2⟩ := Prod.mk.inj (Except.ok.inj h)
      exact ⟨h2.symm, by rw [hcur, h1]⟩
    · exact absurd h (by simp)
  · exact absurd h (by simp)

/-- `eat` raises only `ParserError`, never `RecursionError`. -/
theorem eat_no_recursion (tokens : List Token) (pos : Nat) (tys : List String) :
    eat tokens pos tys ≠ .error .recursionError := by
  unfold eat
  split
  · split
    · simp
    · simp
  · simp

/-- Cursor discipline of the grammar productions: `factor`, `term` and
`expr` consume at least one token on success and never move the cursor
past the end; the `term`/`expr` operator loops either return the cursor
unchanged or advance it within bounds. -/
theorem grammar_pos_bounds : ∀ fuel : Nat,
    (∀ tokens pos v p2, factorF fuel tokens pos = .ok (v, p2) →
        pos < p2 ∧ p2 ≤ tokens.length) ∧
    (∀ tokens pos v p2, termF fuel tokens pos = .ok (v, p2) →
        pos < p2 ∧ p2 ≤ tokens.length) ∧
    (∀ tokens value pos v p2, termLoopF fuel tokens value pos = .ok (v, p2) →
        p2 = pos ∨ (pos < p2 ∧ p2 ≤ tokens.length)) ∧
    (∀ tokens pos v p2, exprF fuel tokens pos = .ok (v, p2) →
        pos < p2 ∧ p2 ≤ tokens.length) ∧
    (∀ tokens value pos v p2, exprLoopF fuel tokens value pos = .ok (v, p2) →
        p2 = pos ∨ (pos < p2 ∧ p2 ≤ tokens.length)) := by
  intro fuel
  induction fuel with
  | zero =>
    refine ⟨?_, ?_, ?_, ?_, ?_⟩
    · intro tokens pos v p2 h; simp only [factorF] at h; exact absurd h (by simp)
    · intro tokens pos v p2 h; simp only [termF] at h; exact absurd h (by simp)
    · intro tokens value pos v p2 h; simp only [termLoopF] at h; exact absurd h (by simp)
    · intro tokens pos v p2 h; simp only [exprF] at h; exact absurd h (by simp)
    · intro tokens value pos v p2 h; simp only [exprLoopF] at h; exact absurd h (by simp)
  | succ fuel ih =>
    obtain ⟨ihF, ihT, ihTL, ihE, ihEL⟩ := ih
    refine ⟨?_, ?_, ?_, ?_, ?_⟩
    · -- factorF
      intro tokens pos v p2 h
      rw [factorF] at h
      cases hc : tokens[pos]? with
      | none => simp only [hc] at h; exact absurd h (by simp)
      | some tok =>
        simp only [hc] at h
        by_cases hN : tok.type = "NUMBER"
        · rw [if_pos hN] at h
          cases heat : eat tokens pos ["NUMBER"] with
          | error e => simp only [heat] at h; exact absurd h (by simp)
          | ok pr =>
            obtain ⟨tk, p1⟩ := pr
            simp only [heat] at h
            obtain ⟨h1, h2⟩ := Prod.mk.inj (Except.ok.inj h)
            obtain ⟨he1, he2⟩ := eat_ok_inv _ _ _ _ _ heat
            have hlt : pos < tokens.length := getElem?_some_lt _ _ _ he2
            omega
        · rw [if_neg hN] at h
          by_cases hL : tok.type = "LPAREN"
          · rw [if_pos hL] at h
            cases heat : eat tokens pos ["LPAREN"] with
            | error e => simp only [heat] at h; exact absurd h (by simp)
            | ok pr =>
              obtain ⟨tk, p1⟩ := pr
              simp only [heat] at h
              cases hex : exprF fuel tokens p1 with
              | error e => simp only [hex] at h; exact absurd h (by simp)
              | ok pr2 =>
                obtain ⟨v2, pe⟩ := pr2
                simp only [hex] at h
                cases heat2 : eat tokens pe ["RPAREN"] with
                | error e => simp only [heat2] at h; exact absurd h (by simp)
                | ok pr3 =>
                  obtain ⟨tk3, p3⟩ := pr3
                  simp only [heat2] at h
                  obtain ⟨h1, h2⟩ := Prod.mk.inj (Except.ok.inj h)
                  obtain ⟨he1, he2⟩ := eat_ok_inv _ _ _ _ _ heat
                  obtain ⟨hx1, hx2⟩ := ihE tokens p1 v2 pe hex
                  obtain ⟨hg1, hg2⟩ := eat_ok_inv _ _ _ _ _ heat2
                  have hlt2 : pe < tokens.length := getElem?_some_lt _ _ _ hg2
                  omega
          · rw [if_neg hL] at h
            exact absurd h (by simp)
    · -- termF
      intro tokens pos v p2 h
      rw [termF] at h
      cases hfa : factorF fuel tokens pos with
      | error e => simp only [hfa] at h; exact absurd h (by simp)
      | ok pr =>
        obtain ⟨v1, p1⟩ := pr
        simp only [hfa] at h
        obtain ⟨hf1, hf2⟩ := ihF tokens pos v1 p1 hfa
        rcases ihTL tokens v1 p1 v p2 h with heq | ⟨hlt, hle⟩
        · omega
        · omega
    · -- termLoopF
      intro tokens value pos v p2 h
      rw [termLoopF] at h
      cases hc : tokens[pos]? with
      | none =>
        simp only [hc] at h
        obtain ⟨h1, h2⟩ := Prod.mk.inj (Except.ok.inj h)
        omega
      | some tok =>
        simp only [hc] at h
        by_cases hop : tok.type = "MUL" ∨ tok.type = "DIV"
        · rw [if_pos hop] at h
          cases heat : eat tokens pos [tok.type] with
          | error e => simp only [heat] at h; exact absurd h (by simp)
          | ok pr =>
            obtain ⟨tk, p1⟩ := pr
            simp only [heat] at h
            cases hfa : factorF fuel tokens p1 with
            | error e => simp only [hfa] at h; exact absurd h (by simp)
            | ok pr2 =>
              obtain ⟨right, pf⟩ := pr2
              simp only [hfa] at h
              obtain ⟨he1, he2⟩ := eat_ok_inv _ _ _ _ _ heat
              have hlt : pos < tokens.length := getElem?_some_lt _ _ _ he2
              obtain ⟨hf1, hf2⟩ := ihF tokens p1 right pf hfa
              by_cases hM : tok.type = "MUL"
              · rw [if_pos hM] at h
                rcases ihTL tokens (value * right) pf v p2 h with heq | ⟨hlt2, hle2⟩
                · omega
                · omega
              · rw [if_neg hM] at h
                by_cases hz : right = 0
                · rw [if_pos hz] at h
                  exact absurd h (by simp)
                · rw [if_neg hz] at h
                  rcases ihTL tokens (value / right) pf v p2 h with heq | ⟨hlt2, hle2⟩
                  · omega
                  · omega
        · rw [if_neg hop] at h
          obtain ⟨h1, h2⟩ := Prod.mk.inj (Except.ok.inj h)
          omega
    · -- exprF
      intro tokens pos v p2 h
      rw [exprF] at h
      cases hte : termF fuel tokens pos with
      | error e => simp only [hte] at h; exact absurd h (by simp)
      | ok pr =>
        obtain ⟨v1, p1⟩ := pr
        simp only [hte] at h
        obtain ⟨ht1, ht2⟩ := ihT tokens pos v1 p1 hte
        rcases ihEL tokens v1 p1 v p2 h with heq | ⟨hlt, hle⟩
        · omega
        · omega
    · -- exprLoopF
      intro tokens value pos v p2 h
      rw [exprLoopF] at h
      cases hc : tokens[pos]? with
      | none =>
        simp only [hc] at h
        obtain ⟨h1, h2⟩ := Prod.mk.inj (Except.ok.inj h)
        omega
      | some tok =>
        simp only [hc] at h
        by_cases hop : tok.type = "PLUS" ∨ tok.type = "MINUS"
        · rw [if_pos hop] at h
          cases heat : eat tokens pos [tok.type] with
          | error e => simp only [heat] at h; exact absurd h (by simp)
          | ok pr =>
            obtain ⟨tk, p1⟩ := pr
            simp only [heat] at h
            cases hte : termF fuel tokens p1 with
            | error e => simp only [hte] at h; exact absurd h (by simp)
            | ok pr2 =>
              obtain ⟨right, pt⟩ := pr2
              simp only [hte] at h
              obtain ⟨he1, he2⟩ := eat_ok_inv _ _ _ _ _ heat
              have hlt : pos < tokens.length := getElem?_some_lt _ _ _ he2
              obtain ⟨ht1, ht2⟩ := ihT tokens p1 right pt hte
              by_cases hP : tok.type = "PLUS"
              · rw [if_pos hP] at h
                rcases ihEL tokens (value + right) pt v p2 h with heq | ⟨hlt2, hle2⟩
                · omega
                · omega
              · rw [if_neg hP] at h
                rcases ihEL tokens (value - right) pt v p2 h with heq | ⟨hlt2, hle2⟩
                · omega
                · omega
        · rw [if_neg hop] at h
          obtain ⟨h1, h2⟩ := Prod.mk.inj (Except.ok.inj h)
          omega

/-- A propagated error is `RecursionError` only if its source was. -/
theorem error_ne_of_ne {α β : Type} (x : Except PyError α) (e : PyError)
    (hx : x ≠ .error .recursionError) (hsub : x = .error e) :
    (Except.error e : Except PyError β) ≠ .error .recursionError := by
  intro hc
  injection hc with h2
  exact hx (hsub.trans (by rw [h2]))

/-- Fuel sufficiency for the grammar productions: with fuel linear in
the number of tokens still ahead of the cursor, none of the five
(mutually recursive) production functions can exhaust its fuel — each
either consumes at least one token before recursing at the same level
or recurses after strictly advancing the cursor. -/
theorem grammar_enough_fuel : ∀ fuel : Nat,
    (∀ tokens pos, 4 * (tokens.length - pos) + 1 ≤ fuel →
        factorF fuel tokens pos ≠ .error .recursionError) ∧
    (∀ tokens pos, 4 * (tokens.length - pos) + 2 ≤ fuel →
        termF fuel tokens pos ≠ .error .recursionError) ∧
    (∀ tokens value pos, 4 * (tokens.length - pos) + 2 ≤ fuel →
        termLoopF fuel tokens value pos ≠ .error .recursionError) ∧
    (∀ tokens pos, 4 * (tokens.length - pos) + 3 ≤ fuel →
        exprF fuel tokens pos ≠ .error .recursionError) ∧
    (∀ tokens value pos, 4 * (tokens.length - pos) + 3 ≤ fuel →
        exprLoopF fuel tokens value pos ≠ .error .recursionError) := by
  intro fuel
  induction fuel with
  | zero =>
    refine ⟨?_, ?_, ?_, ?_, ?_⟩
    · intro tokens pos hb; omega
    · intro tokens pos hb; omega
    · intro tokens value pos hb; omega
    · intro tokens pos hb; omega
    · intro tokens value pos hb; omega
  | succ fuel ih =>
    obtain ⟨ihF, ihT, ihTL, ihE, ihEL⟩ := ih
    obtain ⟨pbF, pbT, pbTL, pbE, pbEL⟩ := grammar_pos_bounds fuel
    refine ⟨?_, ?_, ?_, ?_, ?_⟩
    · intro tokens pos hb
      rw [factorF]
      cases hc : tokens[pos]? with
      | none => simp only [hc]; simp
      | some tok =>
        simp only [hc]
        by_cases hN : tok.type = "NUMBER"
        · rw [if_pos hN]
          cases heat : eat tokens pos ["NUMBER"] with
          | error e => simp only [heat]; exact error_ne_of_ne _ _ (eat_no_recursion _ _ _) heat
          | ok pr => obtain ⟨tk, p1⟩ := pr; simp only [heat]; simp
        · rw [if_neg hN]
          by_cases hL : tok.type = "LPAREN"
          · rw [if_pos hL]
            cases heat : eat tokens pos ["LPAREN"] with
            | error e => simp only [heat]; exact error_ne_of_ne _ _ (eat_no_recursion _ _ _) heat
            | ok pr =>
              obtain ⟨tk, p1⟩ := pr
              simp only [heat]
              obtain ⟨he1, he2⟩ := eat_ok_inv _ _ _ _ _ heat
              have hlt : pos < tokens.length := getElem?_some_lt _ _ _ he2
              have hexne : exprF fuel tokens p1 ≠ .error .recursionError :=
                ihE tokens p1 (by omega)
              cases hex : exprF fuel tokens p1 with
              | error e => simp only [hex]; exact error_ne_of_ne _ _ hexne hex
              | ok pr2 =>
                obtain ⟨v2, pe⟩ := pr2
                simp only [hex]
                cases heat2 : eat tokens pe ["RPAREN"] with
                | error e =>
                  simp only [heat2]
                  exact error_ne_of_ne _ _ (eat_no_recursion _ _ _) heat2
                | ok pr3 => obtain ⟨tk3, p3⟩ := pr3; simp only [heat2]; simp
          · rw [if_neg hL]; simp
    · intro tokens pos hb
      rw [termF]
      have hfane : factorF fuel tokens pos ≠ .error .recursionError :=
        ihF tokens pos (by omega)
      cases hfa : factorF fuel tokens pos with
      | error e => simp only [hfa]; exact error_ne_of_ne _ _ hfane hfa
      | ok pr =>
        obtain ⟨v1, p1⟩ := pr
        simp only [hfa]
        obtain ⟨hp1, hp2⟩ := pbF tokens pos v1 p1 hfa
        exact ihTL tokens v1 p1 (by omega)
    · intro tokens value pos hb
      rw [termLoopF]
      cases hc : tokens[pos]? with
      | none => simp only [hc]; simp
      | some tok =>
        simp only [hc]
        by_cases hop : tok.type = "MUL" ∨ tok.type = "DIV"
        · rw [if_pos hop]
          cases heat : eat tokens pos [tok.type] with
          | error e => simp only [heat]; exact error_ne_of_ne _ _ (eat_no_recursion _ _ _) heat
          | ok pr =>
            obtain ⟨tk, p1⟩ := pr
            simp only [heat]
            obtain ⟨he1, he2⟩ := eat_ok_inv _ _ _ _ _ heat
            have hlt : pos < tokens.length := getElem?_some_lt _ _ _ he2
            have hfane : factorF fuel tokens p1 ≠ .error .recursionError :=
              ihF tokens p1 (by omega)
            cases hfa : factorF fuel tokens p1 with
            | error e => simp only [hfa]; exact error_ne_of_ne _ _ hfane hfa
            | ok pr2 =>
              obtain ⟨right, pf⟩ := pr2
              simp only [hfa]
              obtain ⟨hf1, hf2⟩ := pbF tokens p1 right pf hfa
              by_cases hM : tok.type = "MUL"
              · rw [if_pos hM]
                exact ihTL tokens (value * right) pf (by omega)
              · rw [if_neg hM]
                by_cases hz : right = 0
                · rw [if_pos hz]; simp
                · rw [if_neg hz]
                  exact ihTL tokens (value / right) pf (by omega)
        · rw [if_neg hop]; simp
    · intro tokens pos hb
      rw [exprF]
      have htne : termF fuel tokens pos ≠ .error .recursionError :=
        ihT tokens pos (by omega)
      cases hte : termF fuel tokens pos with
      | error e => simp only [hte]; exact error_ne_of_ne _ _ htne hte
      | ok pr =>
        obtain ⟨v1, p1⟩ := pr
        simp only [hte]
        obtain ⟨hp1, hp2⟩ := pbT tokens pos v1 p1 hte
        exact ihEL tokens v1 p1 (by omega)
    · intro tokens value pos hb
      rw [exprLoopF]
      cases hc : tokens[pos]? with
      | none => simp only [hc]; simp
      | some tok =>
        simp only [hc]
        by_cases hop : tok.type = "PLUS" ∨ tok.type = "MINUS"
        · rw [if_pos hop]
          cases heat : eat tokens pos [tok.type] with
          | error e => simp only [heat]; exact error_ne_of_ne _ _ (eat_no_recursion _ _ _) heat
          | ok pr =>
            obtain ⟨tk, p1⟩ := pr
            simp only [heat]
            obtain ⟨he1, he2⟩ := eat_ok_inv _ _ _ _ _ heat
            have hlt : pos < tokens.length := getElem?_some_lt _ _ _ he2
            have htne : termF fuel tokens p1 ≠ .error .recursionError :=
              ihT tokens p1 (by omega)
            cases hte : termF fuel tokens p1 with
            | error e => simp only [hte]; exact error_ne_of_ne _ _ htne hte
            | ok pr2 =>
              obtain ⟨right, pt⟩ := pr2
              simp only [hte]
              obtain ⟨ht1, ht2⟩ := pbT tokens p1 right pt hte
              by_cases hP : tok.type = "PLUS"
              · rw [if_pos hP]
                exact ihEL tokens (value + right) pt (by omega)
              · rw [if_neg hP]
                exact ihEL tokens (value - right) pt (by omega)
        · rw [if_neg hop]; simp

/-- C9: the grammar productions terminate on every token sequence and
cursor position: fuel linear in the token count (here
`4 * tokens.length + 3`) is never exhausted, because every production
either consumes at least one token or recurses with a strictly
advanced cursor, so no input can cause unbounded recursion. -/
theorem c9_grammar_terminates (tokens : List Token) (pos fuel : Nat)
    (h : 4 * tokens.length + 3 ≤ fuel) :
    exprF fuel tokens pos ≠ .error .recursionError ∧
    termF fuel tokens pos ≠ .error .recursionError ∧
    factorF fuel tokens pos ≠ .error .recursionError := by
  obtain ⟨hF, hT, hTL, hE, hEL⟩ := grammar_enough_fuel fuel
  exact ⟨hE tokens pos (by omega), hT tokens pos (by omega), hF tokens pos (by omega)⟩

theorem c9_grammar_terminates_witness :
    exprF 7 [Token.mk "NUMBER" "1"] 0 ≠ .error .recursionError ∧
    termF 7 [Token.mk "NUMBER" "1"] 0 ≠ .error .recursionError ∧
    factorF 7 [Token.mk "NUMBER" "1"] 0 ≠ .error .recursionError :=
  c9_grammar_terminates [Token.mk "NUMBER" "1"] 0 7 (by decide)

end Validador
